import Mathlib

/-!
Verification of the marker-coverage detection core
(`src/detect_and_compute.cpp` of the marker-coverage repository).

The development shallowly embeds the arithmetic and control flow of
`detect_and_compute` and its helpers.  Pixel-level OpenCV library calls
(color conversion, morphology, connected-component labeling, affine and
perspective warps, contour extraction, and the interiors of the five
grid validators) are not code of this repository; their results enter the
model as explicit inputs collected in the `Env` structure, documented
field by field.  Everything computed by statements of the repository itself —
percentiles, adaptive threshold clamping, component scoring and
selection, quad ordering, the hue-richness score, the validator cascade
ordering, the angle-scan control flow, occupancy/aspect gates, coverage
rounding, and result assembly — is translated directly from the source
and proved about.

Floating-point `double` arithmetic is modelled over `ℚ`; `std::round`
and `std::lround` (round half away from zero) are modelled by
`roundHalf`.  The scan is modelled on the single-threaded compilation
path of the source (the `_OPENMP`-absent branch): one local accumulator
folded over the angle list in order, then merged into the global best,
which is exactly the code with `tid = 0`.
-/

namespace MCE

/-- Rational clamp, `std::clamp(x, lo, hi)` for `double`s. -/
def clampQ (x lo hi : ℚ) : ℚ := max lo (min x hi)

/-- Integer clamp, `std::clamp(x, lo, hi)` for `int`s. -/
def clampZ (x lo hi : ℤ) : ℤ := max lo (min x hi)

/-- Rounding half away from zero: the semantics of `std::round` /
`std::lround` on `double`. -/
def roundHalf (x : ℚ) : ℤ := if x < 0 then -⌊-x + 1/2⌋ else ⌊x + 1/2⌋

/-- Number of entries of a `u8` channel that are `≤ v`: the cumulative
histogram `acc` reached by `percentile_u8` after processing bin `v`
(`hist` is built over the 0..255 byte values, lines 60-69 of
`detect_and_compute.cpp`). -/
def countLe (ch : List ℕ) (v : ℕ) : ℕ :=
  (ch.filter (fun x => decide (x ≤ v))).length

/-- Translation of `percentile_u8` (lines 60-80): builds a 256-bin
histogram, targets `round(clamp(p,0,100)/100 * total)` entries, and
returns the first value whose cumulative count reaches the target,
defaulting to 255. -/
def percentile_u8 (ch : List ℕ) (p : ℚ) : ℕ :=
  let total : ℕ := ch.length
  let target : ℤ := roundHalf (clampQ p 0 100 / 100 * total)
  ((List.range 256).find? (fun v => decide (target ≤ (countLe ch v : ℤ)))).getD 255

/-- Tunables of the detector, translated from `struct Params`
(lines 23-57).  `detect_and_compute` always uses the default values
(`Params P;` at line 713). -/
structure Params where
  Smin_floor : ℤ := 35
  Smin_ceil : ℤ := 80
  Vmin_floor : ℤ := 40
  Vmin_ceil : ℤ := 90
  Vmax_floor : ℤ := 180
  Vmax_ceil : ℤ := 255
  min_comp_frac : ℚ := 2/10000
  max_comp_frac : ℚ := 95/100
  coarse_step_deg : ℕ := 2
  coarse_range_deg : ℕ := 25
  fine_step_deg : ℕ := 1
  fine_range_deg : ℕ := 6
  min_occupancy : ℚ := 30/100
  max_aspect : ℚ := 3
  warpSize : ℕ := 360
  min_hue_score : ℚ := 25/100
  min_line_peak : ℚ := 12/100
  min_peak_sep : ℚ := 12/100
  thirds_tol : ℚ := 15/100
deriving DecidableEq

/-- Default parameter bundle, the `Params P;` of line 713. -/
def P0 : Params := {}

/-- Adaptive saturation floor (line 93):
`Smin = clamp(percentile_u8(S, 85.0) - 10, Smin_floor, Smin_ceil)`. -/
def adaptSmin (S : List ℕ) : ℤ :=
  clampZ ((percentile_u8 S 85 : ℤ) - 10) P0.Smin_floor P0.Smin_ceil

/-- Adaptive value floor (line 94):
`Vmin = clamp(percentile_u8(V, 60.0), Vmin_floor, Vmin_ceil)`. -/
def adaptVmin (V : List ℕ) : ℤ :=
  clampZ (percentile_u8 V 60) P0.Vmin_floor P0.Vmin_ceil

/-- Adaptive value ceiling (line 95):
`Vmax = clamp(percentile_u8(V, 99.0), Vmax_floor, Vmax_ceil)`. -/
def adaptVmax (V : List ℕ) : ℤ :=
  clampZ (percentile_u8 V 99) P0.Vmax_floor P0.Vmax_ceil

/-- A 2-D point with rational coordinates (`cv::Point2f`). -/
structure Pt where
  x : ℚ
  y : ℚ
deriving DecidableEq

/-- A rotated rectangle (`cv::RotatedRect`): center, size, angle in degrees. -/
structure RotRect where
  cx : ℚ
  cy : ℚ
  w : ℚ
  h : ℚ
  angle : ℚ
deriving DecidableEq

/-- Per-component statistics row of `cv::connectedComponentsWithStats`
(8-connectivity, as called at line 133): pixel area and bounding-box
width/height.  By the semantics of the labeling, `area` is also the
`countNonZero` of the mask of that component (used at line 738). -/
structure CompStat where
  area : ℕ
  w : ℕ
  h : ℕ
deriving DecidableEq

/-- An image as seen by the grid-validation code: its dimensions and the
per-pixel (hue, saturation) bytes of its HSV conversion, which is all
`compute_hue_score` reads. -/
structure Img where
  rows : ℕ
  cols : ℕ
  hs : List (ℕ × ℕ)
deriving DecidableEq

/-- Output of `grid_checks_cascade` (struct `GridCheckResult`,
lines 249-253). -/
structure GridCheckResult where
  hue_score : ℚ
  line_ok : Bool
deriving DecidableEq

/-- The per-scan accumulator `struct Best` (lines 766-771). -/
structure Best where
  angle : ℚ
  cov : ℚ
  occ : ℚ
  hue : ℚ
  line_ok : Bool
  tight : RotRect
deriving DecidableEq

/-- Default-initialized `Best` (`Best best;`, all numeric fields 0,
`line_ok` false). -/
def Best0 : Best := ⟨0, 0, 0, 0, false, ⟨0, 0, 0, 0, 0⟩⟩

/-- The result struct `mce::DetectOutput`
(`include/mce/detect_and_compute.hpp`, lines 8-34), with the in-class
default initializers of that header.  The debug path strings are
persistence-collaborator concerns and are not modelled. -/
structure DetectOutput where
  found : Bool := false
  quad : List Pt := []
  coverage_percent : ℤ := -1
  best_angle_deg : ℚ := 0
  occupancy : ℚ := 0
  hue_score : ℚ := 0
  line_ok : Bool := false
  Smin : ℤ := 0
  Vmin : ℤ := 0
  Vmax : ℤ := 255
deriving DecidableEq

/-- Value-initialized result, `out = DetectOutput{}` (line 709). -/
def out0 : DetectOutput := {}

/-- Inputs of one `detect_and_compute` call.  `rows`, `cols` are the
dimensions of the input image.  The remaining fields are the results of the
OpenCV library calls the detector makes, which are outside the
code of the repository: each field is documented with the call it stands
for.  All repository-side arithmetic and control flow consuming these
values is modelled explicitly. -/
structure Env where
  /-- Height and width of the input `bgr` image. -/
  rows : ℕ
  cols : ℕ
  /-- Saturation channel bytes of `cvtColor(bgr, COLOR_BGR2HSV)`
  (`cv::split`, line 90). -/
  S : List ℕ
  /-- Value channel bytes of the same HSV conversion. -/
  V : List ℕ
  /-- Foreground rows (labels 1..num-1) of
  `connectedComponentsWithStats(mask, .., 8)` on the post-morphology
  color mask (line 133), in label order. -/
  comps : List CompStat
  /-- `minAreaRect(cnts[0])` of the outer contour of the selected component
  (line 754); `none` when `findContours` returns no contour
  (line 752). -/
  rr : Option RotRect
  /-- Result of `rotate_and_tighten(comp, rr, ang, tight, occ)`
  (lines 167-227) for a candidate angle: the tight rectangle and the
  occupancy, or `none` when that helper returns `false`. -/
  rotTight : ℚ → Option (RotRect × ℚ)
  /-- The canonical `warpSize × warpSize` perspective warp of the input
  around the tightened rectangle at a candidate angle
  (`warpPerspective`, line 811). -/
  warpAt : ℚ → Img
  /-- The canonical warp of the raw (un-rotated) `minAreaRect` corners,
  used by the fallback path (`warpPerspective`, line 918). -/
  fallbackWarped : Img
  /-- `strip_barcode_like` (lines 347-363): returns its input unchanged
  or with the top 12% cropped, depending on mean top-band statistics. -/
  strip : Img → Img
  /-- The five grid validators (lines 367-647), each a function of the
  stripped warp and the `smallMode` flag:
  `validator_linepeaks_CLAHE`, `validator_colorgrad_Sobel`,
  `validator_maxgap_2cuts`, `validator_kmeans_color`,
  `validator_template_corr`. -/
  v1 : Img → Bool → Bool
  v2 : Img → Bool → Bool
  v3 : Img → Bool → Bool
  v4 : Img → Bool → Bool
  v5 : Img → Bool → Bool
  /-- `cv::RotatedRect::points` (lines 789, 896, 995): the four corners
  of a rotated rectangle. -/
  rectPoints : RotRect → Pt × Pt × Pt × Pt

/-- Connectivity argument passed to `connectedComponentsWithStats` at
line 133. -/
def cc_connectivity : ℕ := 8

/-- Sum of coordinates, the `sumf` lambda of `order_quad_tl_tr_br_bl`
(line 234). -/
def psum (p : Pt) : ℚ := p.x + p.y

/-- Difference of coordinates, the `diff` lambda (line 236). -/
def pdiff (p : Pt) : ℚ := p.x - p.y

/-- First minimizer of `f` over `a :: ps`: the semantics of
`std::min_element` with comparator `f a < f b`. -/
def minEl (f : Pt → ℚ) (ps : List Pt) (a : Pt) : Pt :=
  ps.foldl (fun b p => if f p < f b then p else b) a

/-- First maximizer of `f` over `a :: ps`: the semantics of
`std::max_element` with comparator `f a < f b`. -/
def maxEl (f : Pt → ℚ) (ps : List Pt) (a : Pt) : Pt :=
  ps.foldl (fun b p => if f b < f p then p else b) a

/-- Translation of `order_quad_tl_tr_br_bl` (lines 230-246): TL is the
min of x+y, BR the max of x+y, TR the max of x-y, BL the min of x-y
over the four input points.  Returned in (TL, TR, BR, BL) order. -/
def orderQuad (q : Pt × Pt × Pt × Pt) : Pt × Pt × Pt × Pt :=
  let ps := [q.2.1, q.2.2.1, q.2.2.2]
  (minEl psum ps q.1, maxEl pdiff ps q.1, maxEl psum ps q.1, minEl pdiff ps q.1)

/-- The `{TL, TR, BR, BL}` vector assigned to `out.quad`
(lines 942 and 999). -/
def quadList (q : Pt × Pt × Pt × Pt) : List Pt :=
  [q.1, q.2.1, q.2.2.1, q.2.2.2]

/-- Score of a surviving component in `largest_component` (lines
146-148): `area * compact` where `compact = 1/ar` and
`ar = max(w,h) / max(1, min(w,h))` (integer max/min converted to
`double` before the division). -/
def compScore (c : CompStat) : ℚ :=
  (c.area : ℚ) * (((max 1 (min c.w c.h) : ℕ) : ℚ) / ((max c.w c.h : ℕ) : ℚ))

/-- One iteration of the selection loop of `largest_component` (lines
139-154): components of area < 100 are skipped, otherwise the
candidate replaces the incumbent exactly when its score is strictly
greater (`score > bestScore`). -/
def lcStep (best : Option CompStat) (c : CompStat) : Option CompStat :=
  if c.area < 100 then best
  else
    match best with
    | none => some c
    | some b => if compScore b < compScore c then some c else best

/-- Selection of `largest_component` (lines 130-165): fold the
candidate loop over the foreground components; `none` when nothing
survives (`best < 0`, line 155), which also covers `num <= 1`
(line 134). -/
def largest_component (comps : List CompStat) : Option CompStat :=
  comps.foldl lcStep none

/-- Per-bin population of the 18-bin hue histogram of
`compute_hue_score` (lines 262-271): pixels with saturation above 40
falling in bin `h * 18 / 180`. -/
def hueBinCount (hs : List (ℕ × ℕ)) (b : ℕ) : ℕ :=
  (hs.filter (fun p => decide (40 < p.2 ∧ p.1 * 18 / 180 = b))).length

/-- Translation of `compute_hue_score` (lines 255-278): bins whose
population reaches `max(10, round(0.002 * warpSize²))` count as
distinct; the score is `min(1, distinct / 9)`. -/
def computeHueScore (img : Img) (warpSize : ℕ) : ℚ :=
  let thr : ℤ := max 10 (roundHalf ((2 : ℚ) / 1000 * warpSize * warpSize))
  let distinct :=
    ((List.range 18).filter (fun b => decide (thr ≤ (hueBinCount img.hs b : ℤ)))).length
  min 1 ((distinct : ℚ) / 9)

/-- The five-way early-return chain of `grid_checks_cascade`
(lines 661-681): try each validator in order, stopping at the first
success; `line_ok` is the disjunction reached. -/
def lineOk5 (w1 w2 w3 w4 w5 : Img → Bool → Bool) (W : Img) (small : Bool) : Bool :=
  if w1 W small then true
  else if w2 W small then true
  else if w3 W small then true
  else if w4 W small then true
  else w5 W small

/-- The `smallMode` flag of `grid_checks_cascade` (line 659): the
shorter side of the stripped warp is under 60 pixels. -/
def cascadeSmall (E : Env) (img : Img) : Bool :=
  decide (min (E.strip img).rows (E.strip img).cols < 60)

/-- Translation of `grid_checks_cascade` (lines 650-682): hue score on
the unstripped warp, then the validator chain on the barcode-stripped
warp with the `smallMode` flag. -/
def cascadeRes (E : Env) (img : Img) : GridCheckResult :=
  { hue_score := computeHueScore img P0.warpSize
    line_ok := lineOk5 E.v1 E.v2 E.v3 E.v4 E.v5 (E.strip img) (cascadeSmall E img) }

/-- Acceptance condition applied to a cascade result by both call
sites: `evaluate_angle` rejects when
`gcr.hue_score < P.min_hue_score || !gcr.line_ok` (line 816), and the
fallback accepts when `gcr2.hue_score >= P.min_hue_score &&
gcr2.line_ok` (line 922). -/
def cascadeAccepts (E : Env) (img : Img) : Prop :=
  P0.min_hue_score ≤ (cascadeRes E img).hue_score ∧ (cascadeRes E img).line_ok = true

instance (E : Env) (img : Img) : Decidable (cascadeAccepts E img) := by
  unfold cascadeAccepts; infer_instance

/-- Candidate comparison score (lines 821-823 and 870-871):
`occ * (0.5 + 0.5 * hue)`. -/
def bscore (b : Best) : ℚ := b.occ * (1/2 + 1/2 * b.hue)

/-- Translation of the `evaluate_angle` lambda (lines 774-833):
tighten at the angle, gate on degenerate size, occupancy and aspect,
run the cascade on the canonical warp, and keep the candidate if its
score beats the local best. -/
def evaluateAngle (E : Env) (ang : ℚ) (lb : Best) : Best :=
  match E.rotTight ang with
  | none => lb
  | some (t, occ) =>
    if t.w ≤ 0 ∨ t.h ≤ 0 then lb
    else
      let ar := max t.w t.h / max 1 (min t.w t.h)
      if occ < P0.min_occupancy ∨ P0.max_aspect < ar then lb
      else
        let g := cascadeRes E (E.warpAt ang)
        if g.hue_score < P0.min_hue_score ∨ g.line_ok = false then lb
        else
          let cov := 100 * (t.w * t.h) / ((E.rows * E.cols : ℕ) : ℚ)
          if bscore lb < occ * (1/2 + 1/2 * g.hue_score)
          then ⟨ang, cov, occ, g.hue_score, g.line_ok, t⟩ else lb

/-- Scan center (line 863): the angle of the current best when a candidate
exists, else the angle of the base rectangle. -/
def scanCenter (gbest : Best) (r : RotRect) : ℚ :=
  if 0 < gbest.cov then gbest.angle else r.angle

/-- Angle offsets of one sweep (lines 838-840):
`-range, -range+step, ..., range`. -/
def deltasList (stepDeg rangeDeg : ℕ) : List ℤ :=
  (List.range (2 * rangeDeg / stepDeg + 1)).map
    (fun k => -(rangeDeg : ℤ) + (k : ℤ) * stepDeg)

/-- One invocation of the `scan` lambda (lines 835-883) on the
single-threaded path: evaluate every angle `center + delta` into a
local accumulator, merge it into the global best by strict score
comparison (lines 868-874), and report whether the merged best clears
the early-accept bar `occ > 0.78 && hue > 0.85 && line_ok`
(line 877). -/
def scanPhase (E : Env) (r : RotRect) (stepDeg rangeDeg : ℕ) (gbest : Best) :
    Best × Bool :=
  let center := scanCenter gbest r
  let lb := (deltasList stepDeg rangeDeg).foldl
    (fun b d => evaluateAngle E (center + (d : ℚ)) b) Best0
  let merged := if bscore gbest < bscore lb then lb else gbest
  (merged, decide (39/50 < merged.occ ∧ 17/20 < merged.hue ∧ merged.line_ok = true))

/-- The two-phase sweep (lines 885-886): coarse `±25°` in `2°` steps,
then — only if the coarse result misses the early-accept bar — fine
`±6°` in `1°` steps around the coarse best. -/
def runScans (E : Env) (r : RotRect) : Best :=
  let c := scanPhase E r P0.coarse_step_deg P0.coarse_range_deg Best0
  if c.2 then c.1 else (scanPhase E r P0.fine_step_deg P0.fine_range_deg c.1).1

/-- Component area fraction of the full image (line 738):
`countNonZero(comp) / max(1, rows*cols)`, with `countNonZero` of a
single-component mask equal to the area statistic of the component. -/
def compFrac (E : Env) (c : CompStat) : ℚ :=
  (c.area : ℚ) / ((max 1 (E.rows * E.cols) : ℕ) : ℚ)

/-- Not-found result carrying the adaptive thresholds: `out` after
lines 719-721, as returned by the no-component, fraction-gate and
no-contour exits and the failed fallback. -/
def baseOut (E : Env) : DetectOutput :=
  { out0 with Smin := adaptSmin E.S, Vmin := adaptVmin E.V, Vmax := adaptVmax E.V }

/-- Result assembly on a validated scan candidate (lines 950-999). -/
def assembleScan (E : Env) (b : Best) : DetectOutput :=
  { baseOut E with
    found := true
    coverage_percent := roundHalf (clampQ b.cov 0 100)
    best_angle_deg := b.angle
    occupancy := b.occ
    hue_score := b.hue
    line_ok := b.line_ok
    quad := quadList (orderQuad (E.rectPoints b.tight)) }

/-- Result assembly on the successful fallback path (lines 922-943):
coverage from the raw `minAreaRect` area, `occupancy` hard-coded to 1,
`line_ok` hard-coded to true, angle set to the base angle. -/
def fallbackOut (E : Env) (r : RotRect) (hue : ℚ) : DetectOutput :=
  { baseOut E with
    found := true
    coverage_percent :=
      roundHalf (clampQ (100 * (r.w * r.h) / ((E.rows * E.cols : ℕ) : ℚ)) 0 100)
    best_angle_deg := r.angle
    occupancy := 1
    hue_score := hue
    line_ok := true
    quad := quadList (orderQuad (E.rectPoints r)) }

/-- Translation of `detect_and_compute` (lines 703-1002), paired with
the rectangle whose area the emitted coverage is computed from (the
tightened rectangle of the winning candidate, or the raw `minAreaRect`
on the fallback path; `none` when not found). -/
def detectR (E : Env) : DetectOutput × Option RotRect :=
  if E.rows * E.cols = 0 then (out0, none)
  else
    match largest_component E.comps with
    | none => (baseOut E, none)
    | some c =>
      if compFrac E c < P0.min_comp_frac ∨ P0.max_comp_frac < compFrac E c then
        (baseOut E, none)
      else
        match E.rr with
        | none => (baseOut E, none)
        | some r =>
          let b := runScans E r
          if 0 < b.cov then (assembleScan E b, some b.tight)
          else
            let g := cascadeRes E E.fallbackWarped
            if P0.min_hue_score ≤ g.hue_score ∧ g.line_ok = true then
              (fallbackOut E r g.hue_score, some r)
            else (baseOut E, none)

/-- The `DetectOutput` produced by one `detect_and_compute` call. -/
def detect (E : Env) : DetectOutput := (detectR E).1

/-- Coverage bookkeeping invariant of a `Best` accumulator: whenever a
candidate has been recorded (`cov > 0`), its `cov` is
`100 * tight area / image area` (line 820). -/
def covInv (E : Env) (b : Best) : Prop :=
  0 < b.cov → b.cov = 100 * (b.tight.w * b.tight.h) / ((E.rows * E.cols : ℕ) : ℚ)

/-- Thresholds the line-peaks validator hands to
`two_peaks_prominence` (lines 389-390): in `smallMode` they are capped
at 0.12, otherwise the configured values are used unchanged. -/
def lp_prom (P : Params) (small : Bool) : ℚ :=
  if small then min (12/100) P.min_line_peak else P.min_line_peak

/-- Separation threshold of the line-peaks validator (line 390). -/
def lp_sep (P : Params) (small : Bool) : ℚ :=
  if small then min (12/100) P.min_peak_sep else P.min_peak_sep

/-- Whether `validator_linepeaks_CLAHE` applies its CLAHE
contrast-equalization step (lines 371-375): only outside
`smallMode`. -/
def lp_useCLAHE (small : Bool) : Bool := !small

/-- Spec-side reading of the claim "Smin equals the 85th percentile of
the saturation channel clamped into [35, 80]" — the candidate
refinement target, to be compared with `adaptSmin`. -/
def specSmin (S : List ℕ) : ℤ :=
  clampZ (percentile_u8 S 85) P0.Smin_floor P0.Smin_ceil

/-- Spec-side component score: "area divided by bounding-box aspect
ratio (`max(w,h)/min(w,h)`)" — to be compared with `compScore`. -/
def specCompScore (c : CompStat) : ℚ :=
  (c.area : ℚ) / (((max c.w c.h : ℕ) : ℚ) / ((min c.w c.h : ℕ) : ℚ))

/-- Empty placeholder image. -/
def Img0 : Img := ⟨0, 0, []⟩

/-- Hue-saturation pixels populating three distinct hue bins with 259
pixels each: exactly the `max(10, round(0.002*360*360)) = 259` per-bin
population needed for three distinct bins. -/
def richHS : List (ℕ × ℕ) :=
  List.replicate 259 (5, 100) ++ List.replicate 259 (25, 100) ++
    List.replicate 259 (45, 100)

/-- A 200×200 canonical warp whose hue histogram has three rich bins,
so its hue score is `3/9 = 1/3`. -/
def richImg : Img := ⟨200, 200, richHS⟩

/-- A concrete base rectangle. -/
def rF : RotRect := ⟨0, 0, 40, 40, 7⟩

/-- Corners of the unit square, in construction order. -/
def unitSquarePts : Pt × Pt × Pt × Pt := (⟨0, 0⟩, ⟨1, 0⟩, ⟨1, 1⟩, ⟨0, 1⟩)

/-- Concrete detection call on which the angle scan finds no candidate
(every `rotate_and_tighten` fails) but the fallback warp passes the
cascade through validator 1: exercises the fallback-success path. -/
def EnvF : Env :=
  { rows := 100, cols := 100
    S := [100], V := [100]
    comps := [⟨1000, 50, 50⟩]
    rr := some rF
    rotTight := fun _ => none
    warpAt := fun _ => Img0
    fallbackWarped := richImg
    strip := fun i => i
    v1 := fun _ _ => true
    v2 := fun _ _ => false
    v3 := fun _ _ => false
    v4 := fun _ _ => false
    v5 := fun _ _ => false
    rectPoints := fun _ => unitSquarePts }

/-- Concrete detection call on an empty (zero-pixel) input image. -/
def EnvE : Env :=
  { EnvF with
    rows := 0
    cols := 5
    S := []
    V := []
    comps := []
    rr := none
    fallbackWarped := Img0
    v1 := fun _ _ => false }

/-- Concrete non-empty call whose saturation channel is constant 50:
`percentile_u8(S, 85) = 50`, so the emitted `Smin` is
`clamp(50 - 10) = 40` while the un-shifted reading would give 50. -/
def Env8 : Env :=
  { EnvF with
    rows := 5
    cols := 2
    S := List.replicate 10 50
    V := List.replicate 10 100
    comps := []
    rr := none }

/-- Concrete call whose tightening always yields occupancy 0.1 (below
the 0.30 gate). -/
def Env6 : Env :=
  { EnvF with rotTight := fun _ => some (⟨0, 0, 10, 10, 0⟩, 1/10) }

/-- Component list with one under-area component and two surviving
components of equal score 100: the selector must keep the first. -/
def comps7 : List CompStat := [⟨50, 5, 10⟩, ⟨200, 10, 20⟩, ⟨400, 10, 40⟩]

/-- Concrete call with no connected component at all. -/
def Env7 : Env := { EnvF with comps := [] }

/-- Concrete call whose single component covers 99.9% of the image,
beyond the 95% ceiling. -/
def Env7b : Env := { EnvF with comps := [⟨9990, 100, 100⟩] }

/-! ## Helper lemmas -/

lemma minEl_cons (f : Pt → ℚ) (p : Pt) (ps : List Pt) (a : Pt) :
    minEl f (p :: ps) a = minEl f ps (if f p < f a then p else a) := rfl

lemma maxEl_cons (f : Pt → ℚ) (p : Pt) (ps : List Pt) (a : Pt) :
    maxEl f (p :: ps) a = maxEl f ps (if f a < f p then p else a) := rfl

lemma minEl_mem (f : Pt → ℚ) :
    ∀ (ps : List Pt) (a : Pt), minEl f ps a ∈ a :: ps := by
  intro ps
  induction ps with
  | nil => intro a; simp [minEl]
  | cons p ps ih =>
    intro a
    rw [minEl_cons]
    by_cases hc : f p < f a
    · rw [if_pos hc]
      rcases List.mem_cons.mp (ih p) with h | h
      · simp [h]
      · simp [List.mem_cons_of_mem, h]
    · rw [if_neg hc]
      rcases List.mem_cons.mp (ih a) with h | h
      · simp [h]
      · simp [List.mem_cons_of_mem, h]

lemma minEl_le (f : Pt → ℚ) :
    ∀ (ps : List Pt) (a : Pt), ∀ q ∈ a :: ps, f (minEl f ps a) ≤ f q := by
  intro ps
  induction ps with
  | nil =>
    intro a q hq
    rcases List.mem_cons.mp hq with rfl | h
    · simp [minEl]
    · simp at h
  | cons p ps ih =>
    intro a q hq
    rw [minEl_cons]
    have hbase : f (minEl f ps (if f p < f a then p else a)) ≤
        f (if f p < f a then p else a) :=
      ih _ _ (List.mem_cons_self _ _)
    have hpa : f (if f p < f a then p else a) ≤ f a ∧
        f (if f p < f a then p else a) ≤ f p := by
      by_cases hc : f p < f a
      · rw [if_pos hc]; exact ⟨le_of_lt hc, le_refl _⟩
      · rw [if_neg hc]; exact ⟨le_refl _, le_of_not_lt hc⟩
    rcases List.mem_cons.mp hq with rfl | hq'
    · exact le_trans hbase hpa.1
    · rcases List.mem_cons.mp hq' with rfl | hq''
      · exact le_trans hbase hpa.2
      · exact ih _ _ (List.mem_cons_of_mem _ hq'')

lemma maxEl_mem (f : Pt → ℚ) :
    ∀ (ps : List Pt) (a : Pt), maxEl f ps a ∈ a :: ps := by
  intro ps
  induction ps with
  | nil => intro a; simp [maxEl]
  | cons p ps ih =>
    intro a
    rw [maxEl_cons]
    by_cases hc : f a < f p
    · rw [if_pos hc]
      rcases List.mem_cons.mp (ih p) with h | h
      · simp [h]
      · simp [List.mem_cons_of_mem, h]
    · rw [if_neg hc]
      rcases List.mem_cons.mp (ih a) with h | h
      · simp [h]
      · simp [List.mem_cons_of_mem, h]

lemma maxEl_ge (f : Pt → ℚ) :
    ∀ (ps : List Pt) (a : Pt), ∀ q ∈ a :: ps, f q ≤ f (maxEl f ps a) := by
  intro ps
  induction ps with
  | nil =>
    intro a q hq
    rcases List.mem_cons.mp hq with rfl | h
    · simp [maxEl]
    · simp at h
  | cons p ps ih =>
    intro a q hq
    rw [maxEl_cons]
    have hbase : f (if f a < f p then p else a) ≤
        f (maxEl f ps (if f a < f p then p else a)) :=
      ih _ _ (List.mem_cons_self _ _)
    have hpa : f a ≤ f (if f a < f p then p else a) ∧
        f p ≤ f (if f a < f p then p else a) := by
      by_cases hc : f a < f p
      · rw [if_pos hc]; exact ⟨le_of_lt hc, le_refl _⟩
      · rw [if_neg hc]; exact ⟨le_refl _, le_of_not_lt hc⟩
    rcases List.mem_cons.mp hq with rfl | hq'
    · exact le_trans hpa.1 hbase
    · rcases List.mem_cons.mp hq' with rfl | hq''
      · exact le_trans hpa.2 hbase
      · exact ih _ _ (List.mem_cons_of_mem _ hq'')

lemma orderQuad_mem (q : Pt × Pt × Pt × Pt) :
    ∀ p ∈ quadList (orderQuad q), p ∈ quadList q := by
  intro p hp
  have h1 := minEl_mem psum [q.2.1, q.2.2.1, q.2.2.2] q.1
  have h2 := maxEl_mem pdiff [q.2.1, q.2.2.1, q.2.2.2] q.1
  have h3 := maxEl_mem psum [q.2.1, q.2.2.1, q.2.2.2] q.1
  have h4 := minEl_mem pdiff [q.2.1, q.2.2.1, q.2.2.2] q.1
  simp only [quadList, orderQuad, List.mem_cons, List.not_mem_nil, or_false] at hp ⊢
  rcases hp with rfl | rfl | rfl | rfl
  · simpa using h1
  · simpa using h2
  · simpa using h3
  · simpa using h4

lemma orderQuad_extremal (q : Pt × Pt × Pt × Pt) :
    ∀ p ∈ quadList q,
      psum (orderQuad q).1 ≤ psum p ∧ psum p ≤ psum (orderQuad q).2.2.1 ∧
      pdiff p ≤ pdiff (orderQuad q).2.1 ∧ pdiff (orderQuad q).2.2.2 ≤ pdiff p := by
  intro p hp
  have hp' : p ∈ q.1 :: [q.2.1, q.2.2.1, q.2.2.2] := by
    simpa [quadList] using hp
  exact ⟨minEl_le psum _ q.1 p hp', maxEl_ge psum _ q.1 p hp',
    maxEl_ge pdiff _ q.1 p hp', minEl_le pdiff _ q.1 p hp'⟩

lemma covInv_Best0 (E : Env) : covInv E Best0 := by
  intro h
  exact absurd h (by norm_num [Best0])

lemma covInv_evaluateAngle (E : Env) (ang : ℚ) (lb : Best)
    (h : covInv E lb) : covInv E (evaluateAngle E ang lb) := by
  unfold evaluateAngle
  rcases E.rotTight ang with - | ⟨t, occ⟩
  · exact h
  · dsimp only
    split_ifs with h1 h2 h3 h4
    · exact h
    · exact h
    · exact h
    · intro _; rfl
    · exact h

lemma covInv_fold (E : Env) (c : ℚ) (l : List ℤ) :
    ∀ b : Best, covInv E b →
      covInv E (l.foldl (fun b d => evaluateAngle E (c + (d : ℚ)) b) b) := by
  induction l with
  | nil => intro b hb; exact hb
  | cons d l ih =>
    intro b hb
    exact ih _ (covInv_evaluateAngle E _ b hb)

lemma covInv_scanPhase (E : Env) (r : RotRect) (s g : ℕ) (gb : Best)
    (h : covInv E gb) : covInv E (scanPhase E r s g gb).1 := by
  unfold scanPhase
  dsimp only
  split_ifs with hc
  · exact covInv_fold E _ _ Best0 (covInv_Best0 E)
  · exact h

lemma covInv_runScans (E : Env) (r : RotRect) : covInv E (runScans E r) := by
  unfold runScans
  dsimp only
  split_ifs with hc
  · exact covInv_scanPhase E r _ _ Best0 (covInv_Best0 E)
  · exact covInv_scanPhase E r _ _ _ (covInv_scanPhase E r _ _ Best0 (covInv_Best0 E))

lemma roundHalf_clamp_nonneg (x : ℚ) : 0 ≤ roundHalf (clampQ x 0 100) := by
  have h1 : 0 ≤ clampQ x 0 100 := le_max_left _ _
  unfold roundHalf
  rw [if_neg (not_lt.mpr h1)]
  exact Int.floor_nonneg.mpr (by linarith)

lemma roundHalf_clamp_le (x : ℚ) : roundHalf (clampQ x 0 100) ≤ 100 := by
  have h1 : 0 ≤ clampQ x 0 100 := le_max_left _ _
  have h2 : clampQ x 0 100 ≤ 100 :=
    max_le (by norm_num) (min_le_right _ _)
  unfold roundHalf
  rw [if_neg (not_lt.mpr h1)]
  have h3 : (⌊clampQ x 0 100 + 1/2⌋ : ℚ) < 101 :=
    lt_of_le_of_lt (Int.floor_le _) (by linarith)
  have h4 : ⌊clampQ x 0 100 + 1/2⌋ < 101 := by exact_mod_cast h3
  omega

lemma detectR_shape (E : Env) :
    (E.rows * E.cols = 0 ∧ detectR E = (out0, none)) ∨
    ((detectR E).1 = baseOut E ∧ (detectR E).2 = none) ∨
    (∃ b : Best, 0 < b.cov ∧ covInv E b ∧
      detectR E = (assembleScan E b, some b.tight)) ∨
    (∃ r : RotRect, ∃ g : ℚ, E.rr = some r ∧
      detectR E = (fallbackOut E r g, some r)) := by
  by_cases h0 : E.rows * E.cols = 0
  · left
    exact ⟨h0, by unfold detectR; rw [if_pos h0]⟩
  · rcases hlc : largest_component E.comps with - | c
    · right; left
      constructor <;> (unfold detectR; rw [if_neg h0, hlc])
    · by_cases hf : compFrac E c < P0.min_comp_frac ∨ P0.max_comp_frac < compFrac E c
      · right; left
        constructor <;> (unfold detectR; rw [if_neg h0, hlc]; simp only [if_pos hf])
      · rcases hrr : E.rr with - | r
        · right; left
          constructor <;> (unfold detectR; rw [if_neg h0, hlc]
                           simp only [if_neg hf]; rw [hrr])
        · by_cases hcov : 0 < (runScans E r).cov
          · right; right; left
            refine ⟨runScans E r, hcov, covInv_runScans E r, ?_⟩
            unfold detectR
            rw [if_neg h0, hlc]
            simp only [if_neg hf]
            rw [hrr]
            simp only [if_pos hcov]
          · by_cases hacc : P0.min_hue_score ≤ (cascadeRes E E.fallbackWarped).hue_score ∧
                (cascadeRes E E.fallbackWarped).line_ok = true
            · right; right; right
              refine ⟨r, (cascadeRes E E.fallbackWarped).hue_score, hrr ▸ rfl, ?_⟩
              unfold detectR
              rw [if_neg h0, hlc]
              simp only [if_neg hf]
              rw [hrr]
              simp only [if_neg hcov, if_pos hacc]
            · right; left
              constructor <;> (unfold detectR; rw [if_neg h0, hlc]
                               simp only [if_neg hf]; rw [hrr]
                               simp only [if_neg hcov, if_neg hacc])

lemma out0_found : out0.found = false := rfl

lemma baseOut_found (E : Env) : (baseOut E).found = false := rfl

lemma baseOut_coverage (E : Env) : (baseOut E).coverage_percent = -1 := rfl

lemma quad_ordered (q : Pt × Pt × Pt × Pt) :
    ∃ a b c d : Pt, quadList (orderQuad q) = [a, b, c, d] ∧
      ∀ p ∈ quadList (orderQuad q),
        psum a ≤ psum p ∧ psum p ≤ psum c ∧
        pdiff p ≤ pdiff b ∧ pdiff d ≤ pdiff p := by
  refine ⟨(orderQuad q).1, (orderQuad q).2.1, (orderQuad q).2.2.1,
    (orderQuad q).2.2.2, rfl, ?_⟩
  intro p hp
  exact orderQuad_extremal q p (orderQuad_mem q p hp)

/-! ## Claim theorems -/

/-- C1: for every `DetectionResult` returned with `found = true`, the
`quad` field contains exactly four points canonically ordered:
`quad[0]` attains the minimum of `x+y` among the four points,
`quad[2]` the maximum of `x+y`, `quad[1]` the maximum of `x-y`, and
`quad[3]` the minimum of `x-y`. -/
theorem C1_quad_canonical_order (E : Env) (h : (detect E).found = true) :
    ∃ a b c d : Pt, (detect E).quad = [a, b, c, d] ∧
      ∀ p ∈ (detect E).quad,
        psum a ≤ psum p ∧ psum p ≤ psum c ∧
        pdiff p ≤ pdiff b ∧ pdiff d ≤ pdiff p := by
  rcases detectR_shape E with ⟨h0, hD⟩ | ⟨hD, -⟩ | ⟨b, hb, hinv, hD⟩ | ⟨r, g, hrr, hD⟩
  · rw [detect, hD] at h
    exact absurd h (by simp [out0_found])
  · rw [detect] at h
    rw [hD] at h
    exact absurd h (by simp [baseOut_found])
  · have hq : (detect E).quad = quadList (orderQuad (E.rectPoints b.tight)) := by
      rw [detect, hD]; rfl
    rw [hq]
    exact quad_ordered _
  · have hq : (detect E).quad = quadList (orderQuad (E.rectPoints r)) := by
      rw [detect, hD]; rfl
    rw [hq]
    exact quad_ordered _

set_option maxRecDepth 1000000 in
unseal Rat.mul Rat.add Rat.sub Rat.inv in
/-- Witness for C1 at a concrete successful detection. -/
theorem C1_quad_canonical_order_witness :
    (detect EnvF).found = true ∧
    ∃ a b c d : Pt, (detect EnvF).quad = [a, b, c, d] ∧
      ∀ p ∈ (detect EnvF).quad,
        psum a ≤ psum p ∧ psum p ≤ psum c ∧
        pdiff p ≤ pdiff b ∧ pdiff d ≤ pdiff p :=
  ⟨by decide, C1_quad_canonical_order EnvF (by decide)⟩

/-- C2: whenever `detect_and_compute` reports `found = true`, the
emitted `coverage_percent` equals `100 × (chosen rectangle area /
image area)` rounded to nearest and clamped to `[0, 100]`, the chosen
rectangle being the tightened rectangle of the winning candidate (raw
`minAreaRect` on the fallback path); whenever it reports
`found = false`, `coverage_percent` is the sentinel `-1`. -/
theorem C2_coverage_formula (E : Env) :
    ((detect E).found = true →
      ∃ R : RotRect, (detectR E).2 = some R ∧
        (detect E).coverage_percent =
          roundHalf (clampQ (100 * (R.w * R.h) / ((E.rows * E.cols : ℕ) : ℚ)) 0 100)) ∧
    ((detect E).found = false → (detect E).coverage_percent = -1) := by
  rcases detectR_shape E with ⟨h0, hD⟩ | ⟨hD1, hD2⟩ | ⟨b, hb, hinv, hD⟩ | ⟨r, g, hrr, hD⟩
  · constructor
    · intro h
      rw [detect, hD] at h
      exact absurd h (by simp [out0_found])
    · intro _
      rw [detect, hD]
      rfl
  · constructor
    · intro h
      rw [detect, hD1] at h
      exact absurd h (by simp [baseOut_found])
    · intro _
      rw [detect, hD1]
      rfl
  · constructor
    · intro _
      refine ⟨b.tight, by rw [hD], ?_⟩
      rw [detect, hD]
      show roundHalf (clampQ b.cov 0 100) = _
      rw [hinv hb]
    · intro h
      rw [detect, hD] at h
      exact absurd h (by simp [assembleScan])
  · constructor
    · intro _
      refine ⟨r, by rw [hD], ?_⟩
      rw [detect, hD]
      rfl
    · intro h
      rw [detect, hD] at h
      exact absurd h (by simp [fallbackOut])

set_option maxRecDepth 1000000 in
unseal Rat.mul Rat.add Rat.sub Rat.inv in
/-- Witness for C2 at a concrete successful detection (coverage 16 from
a 40×40 rectangle in a 100×100 image). -/
theorem C2_coverage_formula_witness :
    (detect EnvF).found = true ∧
    (∃ R : RotRect, (detectR EnvF).2 = some R ∧
      (detect EnvF).coverage_percent =
        roundHalf (clampQ (100 * (R.w * R.h) / ((EnvF.rows * EnvF.cols : ℕ) : ℚ)) 0 100)) :=
  ⟨by decide, (C2_coverage_formula EnvF).1 (by decide)⟩

/-- C3: an empty input image (zero pixels) makes `detect_and_compute`
return immediately with `found = false` and a default-initialized
result; in general every input produces a well-formed
`DetectionResult` (the embedding is a total function, so no code path
raises an error): not-found results carry the `-1` sentinel and an
empty quad, found results carry a coverage in `[0, 100]` and exactly
four quad points. -/
theorem C3_empty_shortcircuit_total (E : Env) :
    (E.rows * E.cols = 0 → detect E = out0) ∧
    ((detect E).found = false →
      (detect E).coverage_percent = -1 ∧ (detect E).quad = []) ∧
    ((detect E).found = true →
      0 ≤ (detect E).coverage_percent ∧ (detect E).coverage_percent ≤ 100 ∧
      (detect E).quad.length = 4) := by
  refine ⟨?_, ?_, ?_⟩
  · intro h0
    rw [detect]
    unfold detectR
    rw [if_pos h0]
  · intro h
    rcases detectR_shape E with ⟨h0, hD⟩ | ⟨hD, -⟩ | ⟨b, hb, hinv, hD⟩ | ⟨r, g, hrr, hD⟩
    · rw [detect, hD]
      exact ⟨rfl, rfl⟩
    · rw [detect] at h ⊢
      rw [hD]
      exact ⟨rfl, rfl⟩
    · rw [detect, hD] at h
      exact absurd h (by simp [assembleScan])
    · rw [detect, hD] at h
      exact absurd h (by simp [fallbackOut])
  · intro h
    rcases detectR_shape E with ⟨h0, hD⟩ | ⟨hD, -⟩ | ⟨b, hb, hinv, hD⟩ | ⟨r, g, hrr, hD⟩
    · rw [detect, hD] at h
      exact absurd h (by simp [out0_found])
    · rw [detect] at h
      rw [hD] at h
      exact absurd h (by simp [baseOut_found])
    · rw [detect, hD]
      exact ⟨roundHalf_clamp_nonneg _, roundHalf_clamp_le _, rfl⟩
    · rw [detect, hD]
      exact ⟨roundHalf_clamp_nonneg _, roundHalf_clamp_le _, rfl⟩

set_option maxRecDepth 1000000 in
unseal Rat.mul Rat.add Rat.sub Rat.inv in
/-- Witness for C3 at a concrete empty image. -/
theorem C3_empty_shortcircuit_total_witness :
    EnvE.rows * EnvE.cols = 0 ∧ detect EnvE = out0 :=
  ⟨by decide, (C3_empty_shortcircuit_total EnvE).1 (by decide)⟩

lemma lineOk5_eq_true_iff (w1 w2 w3 w4 w5 : Img → Bool → Bool) (W : Img) (s : Bool) :
    lineOk5 w1 w2 w3 w4 w5 W s = true ↔
      (w1 W s = true ∨ w2 W s = true ∨ w3 W s = true ∨
       w4 W s = true ∨ w5 W s = true) := by
  unfold lineOk5
  split_ifs with h1 h2 h3 h4 <;> simp_all

/-- C4: the canonical square of a candidate is accepted by the grid
validation cascade iff its hue-richness score (18 hue bins over pixels
with saturation above the floor, bins counted when reaching
`max(10, round(0.002·warpSize²))` pixels, count divided by 9 and
capped at 1) is at least 0.25 AND at least one of the five validators
— line-peaks, color-gradient, max-gap two-cuts, k-means and
template-correlation, tried in exactly that order — succeeds; the
chain result never depends on validators after the first
successful one. -/
theorem C4_cascade_acceptance (E : Env) (img : Img) :
    (cascadeAccepts E img ↔
      ((25/100 : ℚ) ≤ computeHueScore img P0.warpSize ∧
        (E.v1 (E.strip img) (cascadeSmall E img) = true ∨
         E.v2 (E.strip img) (cascadeSmall E img) = true ∨
         E.v3 (E.strip img) (cascadeSmall E img) = true ∨
         E.v4 (E.strip img) (cascadeSmall E img) = true ∨
         E.v5 (E.strip img) (cascadeSmall E img) = true))) ∧
    (∀ w2 w3 w4 w5 : Img → Bool → Bool,
      E.v1 (E.strip img) (cascadeSmall E img) = true →
      lineOk5 E.v1 w2 w3 w4 w5 (E.strip img) (cascadeSmall E img) = true) ∧
    (∀ w3 w4 w5 : Img → Bool → Bool,
      E.v2 (E.strip img) (cascadeSmall E img) = true →
      lineOk5 E.v1 E.v2 w3 w4 w5 (E.strip img) (cascadeSmall E img) =
        lineOk5 E.v1 E.v2 E.v3 E.v4 E.v5 (E.strip img) (cascadeSmall E img)) ∧
    (∀ w4 w5 : Img → Bool → Bool,
      E.v3 (E.strip img) (cascadeSmall E img) = true →
      lineOk5 E.v1 E.v2 E.v3 w4 w5 (E.strip img) (cascadeSmall E img) =
        lineOk5 E.v1 E.v2 E.v3 E.v4 E.v5 (E.strip img) (cascadeSmall E img)) ∧
    (∀ w5 : Img → Bool → Bool,
      E.v4 (E.strip img) (cascadeSmall E img) = true →
      lineOk5 E.v1 E.v2 E.v3 E.v4 w5 (E.strip img) (cascadeSmall E img) =
        lineOk5 E.v1 E.v2 E.v3 E.v4 E.v5 (E.strip img) (cascadeSmall E img)) := by
  refine ⟨?_, ?_, ?_, ?_, ?_⟩
  · unfold cascadeAccepts cascadeRes
    dsimp only
    rw [lineOk5_eq_true_iff]
    exact Iff.rfl
  · intro w2 w3 w4 w5 h
    unfold lineOk5
    simp [h]
  · intro w3 w4 w5 h
    unfold lineOk5
    by_cases h1 : E.v1 (E.strip img) (cascadeSmall E img) = true <;>
      simp [h1, h]
  · intro w4 w5 h
    unfold lineOk5
    by_cases h1 : E.v1 (E.strip img) (cascadeSmall E img) = true <;>
      by_cases h2 : E.v2 (E.strip img) (cascadeSmall E img) = true <;>
        simp [h1, h2, h]
  · intro w5 h
    unfold lineOk5
    by_cases h1 : E.v1 (E.strip img) (cascadeSmall E img) = true <;>
      by_cases h2 : E.v2 (E.strip img) (cascadeSmall E img) = true <;>
        by_cases h3 : E.v3 (E.strip img) (cascadeSmall E img) = true <;>
          simp [h1, h2, h3, h]

set_option maxRecDepth 1000000 in
unseal Rat.mul Rat.add Rat.sub Rat.inv in
/-- Witness for C4: a hue-rich warp with validator 1 succeeding is
accepted, and the chain result ignores the replaced later
validators. -/
theorem C4_cascade_acceptance_witness :
    cascadeAccepts EnvF richImg ∧
    lineOk5 EnvF.v1 (fun _ _ => false) (fun _ _ => false) (fun _ _ => false)
      (fun _ _ => false) (EnvF.strip richImg) (cascadeSmall EnvF richImg) = true :=
  ⟨(C4_cascade_acceptance EnvF richImg).1.mpr ⟨by decide, Or.inl (by decide)⟩,
   (C4_cascade_acceptance EnvF richImg).2.1 _ _ _ _ (by decide)⟩

/-- C5: if no scanned angle yields a validated candidate (`best.cov`
stayed at 0), the pipeline retries exactly once, sending the warp of
the raw (un-rotated) minimum-area rectangle of the selector through the
same validation cascade; if that fallback fails validation, the result
is `found = false` with the `-1` sentinel and no error. -/
theorem C5_fallback_retry (E : Env) (c : CompStat) (r : RotRect)
    (h0 : E.rows * E.cols ≠ 0)
    (hlc : largest_component E.comps = some c)
    (hf : ¬(compFrac E c < P0.min_comp_frac ∨ P0.max_comp_frac < compFrac E c))
    (hrr : E.rr = some r)
    (hscan : (runScans E r).cov ≤ 0) :
    ((P0.min_hue_score ≤ (cascadeRes E E.fallbackWarped).hue_score ∧
        (cascadeRes E E.fallbackWarped).line_ok = true) →
      detect E = fallbackOut E r (cascadeRes E E.fallbackWarped).hue_score ∧
      (detect E).found = true) ∧
    (¬(P0.min_hue_score ≤ (cascadeRes E E.fallbackWarped).hue_score ∧
        (cascadeRes E E.fallbackWarped).line_ok = true) →
      detect E = baseOut E ∧ (detect E).found = false ∧
      (detect E).coverage_percent = -1) := by
  have hbranch : ∀ hacc : Prop, ∀ inst : Decidable hacc, detect E =
      (if hacc then
        (fallbackOut E r (cascadeRes E E.fallbackWarped).hue_score, some r)
      else (baseOut E, none)).1 → True := fun _ _ _ => trivial
  constructor
  · intro hacc
    have hD : detect E = fallbackOut E r (cascadeRes E E.fallbackWarped).hue_score := by
      rw [detect]
      unfold detectR
      rw [if_neg h0, hlc]
      simp only [if_neg hf]
      rw [hrr]
      simp only [if_neg (not_lt.mpr hscan), if_pos hacc]
    exact ⟨hD, by rw [hD]; rfl⟩
  · intro hacc
    have hD : detect E = baseOut E := by
      rw [detect]
      unfold detectR
      rw [if_neg h0, hlc]
      simp only [if_neg hf]
      rw [hrr]
      simp only [if_neg (not_lt.mpr hscan), if_neg hacc]
    exact ⟨hD, by rw [hD]; rfl, by rw [hD]; rfl⟩

set_option maxRecDepth 1000000 in
unseal Rat.mul Rat.add Rat.sub Rat.inv in
/-- Witness for C5: a concrete call in which the scan finds nothing and
the fallback validates. -/
theorem C5_fallback_retry_witness :
    (runScans EnvF rF).cov ≤ 0 ∧
    detect EnvF = fallbackOut EnvF rF (cascadeRes EnvF EnvF.fallbackWarped).hue_score ∧
    (detect EnvF).found = true :=
  ⟨by decide,
   (C5_fallback_retry EnvF ⟨1000, 50, 50⟩ rF (by decide) (by decide) (by decide)
     (by decide) (by decide)).1 (by decide)⟩

/-- C6: every candidate angle whose tightened rectangle has occupancy
below 0.30 or aspect ratio above 3.0 is rejected (the local best is
unchanged); the fine sweep (`±6°` in `1°` steps) runs exactly when the
coarse sweep (`±25°` in `2°` steps) produced no best candidate
clearing the early-accept bar `occupancy > 0.78 ∧ hue > 0.85 ∧
line_ok`; when the coarse phase recorded a candidate, the fine sweep
is centered on the best coarse angle. -/
theorem C6_gates_and_fine_sweep (E : Env) (r : RotRect) :
    (∀ (ang : ℚ) (lb : Best) (t : RotRect) (occ : ℚ),
      E.rotTight ang = some (t, occ) →
      (occ < 30/100 ∨ 3 < max t.w t.h / max 1 (min t.w t.h)) →
      evaluateAngle E ang lb = lb) ∧
    ((scanPhase E r P0.coarse_step_deg P0.coarse_range_deg Best0).2 = true ↔
      (39/50 < (scanPhase E r P0.coarse_step_deg P0.coarse_range_deg Best0).1.occ ∧
       17/20 < (scanPhase E r P0.coarse_step_deg P0.coarse_range_deg Best0).1.hue ∧
       (scanPhase E r P0.coarse_step_deg P0.coarse_range_deg Best0).1.line_ok = true)) ∧
    ((scanPhase E r P0.coarse_step_deg P0.coarse_range_deg Best0).2 = true →
      runScans E r = (scanPhase E r P0.coarse_step_deg P0.coarse_range_deg Best0).1) ∧
    ((scanPhase E r P0.coarse_step_deg P0.coarse_range_deg Best0).2 = false →
      runScans E r =
        (scanPhase E r P0.fine_step_deg P0.fine_range_deg
          (scanPhase E r P0.coarse_step_deg P0.coarse_range_deg Best0).1).1) ∧
    (0 < (scanPhase E r P0.coarse_step_deg P0.coarse_range_deg Best0).1.cov →
      scanCenter (scanPhase E r P0.coarse_step_deg P0.coarse_range_deg Best0).1 r =
        (scanPhase E r P0.coarse_step_deg P0.coarse_range_deg Best0).1.angle) ∧
    deltasList P0.fine_step_deg P0.fine_range_deg =
      [-6, -5, -4, -3, -2, -1, 0, 1, 2, 3, 4, 5, 6] ∧
    deltasList P0.coarse_step_deg P0.coarse_range_deg =
      [-25, -23, -21, -19, -17, -15, -13, -11, -9, -7, -5, -3, -1,
        1, 3, 5, 7, 9, 11, 13, 15, 17, 19, 21, 23, 25] := by
  refine ⟨?_, ?_, ?_, ?_, ?_, by decide, by decide⟩
  · intro ang lb t occ hrt hgate
    unfold evaluateAngle
    rw [hrt]
    dsimp only
    by_cases h1 : t.w ≤ 0 ∨ t.h ≤ 0
    · rw [if_pos h1]
    · have hgate' : occ < P0.min_occupancy ∨
          P0.max_aspect < max t.w t.h / max 1 (min t.w t.h) := hgate
      rw [if_neg h1, if_pos hgate']
  · exact decide_eq_true_iff
  · intro h
    unfold runScans
    dsimp only
    rw [h]
    rfl
  · intro h
    unfold runScans
    dsimp only
    rw [h]
    rfl
  · intro h
    unfold scanCenter
    rw [if_pos h]

set_option maxRecDepth 1000000 in
unseal Rat.mul Rat.add Rat.sub Rat.inv in
/-- Witness for C6: a candidate with occupancy 0.1 is rejected. -/
theorem C6_gates_and_fine_sweep_witness :
    Env6.rotTight 0 = some (⟨0, 0, 10, 10, 0⟩, 1/10) ∧
    evaluateAngle Env6 0 Best0 = Best0 :=
  ⟨by decide,
   (C6_gates_and_fine_sweep Env6 rF).1 0 Best0 ⟨0, 0, 10, 10, 0⟩ (1/10)
     (by decide) (by decide)⟩

lemma lc_fold_none_iff :
    ∀ (l : List CompStat) (acc : Option CompStat),
      l.foldl lcStep acc = none ↔ (acc = none ∧ ∀ cc ∈ l, cc.area < 100) := by
  intro l
  induction l with
  | nil => intro acc; simp
  | cons c0 l ih =>
    intro acc
    rw [List.foldl_cons, ih]
    have hstep : lcStep acc c0 = none ↔ (acc = none ∧ c0.area < 100) := by
      unfold lcStep
      by_cases hs : c0.area < 100
      · rw [if_pos hs]; simp [hs]
      · rw [if_neg hs]
        rcases acc with - | b
        · simp [hs]
        · simp only [hs, and_false, iff_false]
          split_ifs <;> simp
    rw [hstep]
    constructor
    · rintro ⟨⟨h1, h2⟩, h3⟩
      refine ⟨h1, ?_⟩
      intro cc hcc
      rcases List.mem_cons.mp hcc with rfl | hcc'
      · exact h2
      · exact h3 cc hcc'
    · rintro ⟨h1, h2⟩
      exact ⟨⟨h1, h2 c0 (List.mem_cons_self _ _)⟩,
        fun cc hcc => h2 cc (List.mem_cons_of_mem _ hcc)⟩

lemma lc_fold_some_spec :
    ∀ (l : List CompStat) (acc : Option CompStat) (c : CompStat),
      l.foldl lcStep acc = some c →
      (acc = some c ∨ (c ∈ l ∧ 100 ≤ c.area)) ∧
      (∀ b, acc = some b → compScore b ≤ compScore c) ∧
      (∀ cc ∈ l, 100 ≤ cc.area → compScore cc ≤ compScore c) := by
  intro l
  induction l with
  | nil =>
    intro acc c h
    simp only [List.foldl_nil] at h
    refine ⟨Or.inl h, ?_, ?_⟩
    · intro b hb
      rw [h] at hb
      injection hb with hb
      rw [hb]
    · intro cc hcc
      simp at hcc
  | cons c0 l ih =>
    intro acc c h
    rw [List.foldl_cons] at h
    obtain ⟨hmem, hacc, hsurv⟩ := ih (lcStep acc c0) c h
    by_cases hs : c0.area < 100
    · have hstep : lcStep acc c0 = acc := by unfold lcStep; rw [if_pos hs]
      rw [hstep] at hmem hacc
      refine ⟨?_, hacc, ?_⟩
      · rcases hmem with h1 | h1
        · exact Or.inl h1
        · exact Or.inr ⟨List.mem_cons_of_mem _ h1.1, h1.2⟩
      · intro cc hcc hbig
        rcases List.mem_cons.mp hcc with rfl | hcc'
        · exact absurd hbig (by omega)
        · exact hsurv cc hcc' hbig
    · have hbig0 : 100 ≤ c0.area := by omega
      rcases hA : acc with - | b0
      · have hstep : lcStep acc c0 = some c0 := by
          unfold lcStep; rw [if_neg hs, hA]
        rw [hstep] at hmem hacc
        have hc0c : compScore c0 ≤ compScore c := hacc c0 rfl
        refine ⟨?_, ?_, ?_⟩
        · rcases hmem with h1 | h1
          · injection h1 with h1
            exact Or.inr ⟨by rw [← h1]; exact List.mem_cons_self _ _, h1 ▸ hbig0⟩
          · exact Or.inr ⟨List.mem_cons_of_mem _ h1.1, h1.2⟩
        · intro b hb
          simp [hA] at hb
        · intro cc hcc hbig
          rcases List.mem_cons.mp hcc with rfl | hcc'
          · exact hc0c
          · exact hsurv cc hcc' hbig
      · have hstep : lcStep acc c0 =
            some (if compScore b0 < compScore c0 then c0 else b0) := by
          unfold lcStep
          rw [if_neg hs, hA]
          split_ifs with hlt <;> simp [hlt]
        rw [hstep] at hmem hacc
        have hbbc : compScore (if compScore b0 < compScore c0 then c0 else b0) ≤
            compScore c := hacc _ rfl
        have hb0bb : compScore b0 ≤
            compScore (if compScore b0 < compScore c0 then c0 else b0) := by
          split_ifs with hlt
          · exact le_of_lt hlt
          · exact le_refl _
        have hc0bb : compScore c0 ≤
            compScore (if compScore b0 < compScore c0 then c0 else b0) := by
          split_ifs with hlt
          · exact le_refl _
          · exact le_of_not_lt hlt
        refine ⟨?_, ?_, ?_⟩
        · rcases hmem with h1 | h1
          · injection h1 with h1
            by_cases hlt : compScore b0 < compScore c0
            · rw [if_pos hlt] at h1
              exact Or.inr ⟨by rw [← h1]; exact List.mem_cons_self _ _, h1 ▸ hbig0⟩
            · rw [if_neg hlt] at h1
              exact Or.inl (by rw [h1])
          · exact Or.inr ⟨List.mem_cons_of_mem _ h1.1, h1.2⟩
        · intro b hb
          injection hb with hb
          rw [← hb]
          exact le_trans hb0bb hbbc
        · intro cc hcc hbig
          rcases List.mem_cons.mp hcc with rfl | hcc'
          · exact le_trans hc0bb hbbc
          · exact hsurv cc hcc' hbig

lemma compScore_eq_spec (c : CompStat) (hw : 1 ≤ c.w) (hh : 1 ≤ c.h) :
    compScore c = specCompScore c := by
  unfold compScore specCompScore
  have h1 : max 1 (min c.w c.h) = min c.w c.h := max_eq_right (le_min hw hh)
  rw [h1]
  have hm1 : (1 : ℚ) ≤ ((min c.w c.h : ℕ) : ℚ) := by exact_mod_cast le_min hw hh
  have hM1 : (1 : ℚ) ≤ ((max c.w c.h : ℕ) : ℚ) := by
    exact_mod_cast le_trans hw (le_max_left _ _)
  have hm : ((min c.w c.h : ℕ) : ℚ) ≠ 0 := by linarith
  have hM : ((max c.w c.h : ℕ) : ℚ) ≠ 0 := by linarith
  field_simp

/-- C7: the dominant-region selector considers only components (from
8-connectivity labeling) with pixel area at least 100, scores each
survivor as area divided by the bounding-box aspect ratio
`max(w,h)/min(w,h)`, and selects a maximum-score component (`none`
exactly when no component survives); detection then reports
`found = false` with no error when no component survives or when the
area fraction of the selected component is below 0.0002 or above 0.95. -/
theorem C7_component_selection :
    (∀ comps : List CompStat,
      (largest_component comps = none ↔ ∀ cc ∈ comps, cc.area < 100)) ∧
    (∀ (comps : List CompStat) (c : CompStat),
      (∀ cc ∈ comps, 1 ≤ cc.w ∧ 1 ≤ cc.h) →
      largest_component comps = some c →
      c ∈ comps ∧ 100 ≤ c.area ∧
        ∀ cc ∈ comps, 100 ≤ cc.area → specCompScore cc ≤ specCompScore c) ∧
    (∀ E : Env, E.rows * E.cols ≠ 0 →
      (largest_component E.comps = none →
        detect E = baseOut E ∧ (detect E).found = false) ∧
      (∀ c : CompStat, largest_component E.comps = some c →
        (compFrac E c < 2/10000 ∨ 95/100 < compFrac E c) →
        detect E = baseOut E ∧ (detect E).found = false)) ∧
    cc_connectivity = 8 := by
  refine ⟨?_, ?_, ?_, rfl⟩
  · intro comps
    unfold largest_component
    rw [lc_fold_none_iff]
    simp
  · intro comps c hwf h
    obtain ⟨hmem, -, hsurv⟩ := lc_fold_some_spec comps none c h
    rcases hmem with h1 | h1
    · exact absurd h1 (by simp)
    · refine ⟨h1.1, h1.2, ?_⟩
      intro cc hcc hbig
      have hwc := hwf c h1.1
      have hwcc := hwf cc hcc
      rw [← compScore_eq_spec cc hwcc.1 hwcc.2, ← compScore_eq_spec c hwc.1 hwc.2]
      exact hsurv cc hcc hbig
  · intro E h0
    constructor
    · intro hlc
      have hD : detect E = baseOut E := by
        rw [detect]
        unfold detectR
        rw [if_neg h0, hlc]
      exact ⟨hD, by rw [hD]; rfl⟩
    · intro c hlc hfr
      have hfr' : compFrac E c < P0.min_comp_frac ∨
          P0.max_comp_frac < compFrac E c := hfr
      have hD : detect E = baseOut E := by
        rw [detect]
        unfold detectR
        rw [if_neg h0, hlc]
        simp only [if_pos hfr']
      exact ⟨hD, by rw [hD]; rfl⟩

set_option maxRecDepth 1000000 in
unseal Rat.mul Rat.add Rat.sub Rat.inv in
/-- Witness for C7: a list with one under-area component and two
survivors of equal score 100, where the first survivor is kept; and a
concrete call with no component, which reports not-found. -/
theorem C7_component_selection_witness :
    largest_component comps7 = some ⟨200, 10, 20⟩ ∧
    ((⟨200, 10, 20⟩ : CompStat) ∈ comps7 ∧ 100 ≤ (200 : ℕ) ∧
      ∀ cc ∈ comps7, 100 ≤ cc.area →
        specCompScore cc ≤ specCompScore ⟨200, 10, 20⟩) ∧
    largest_component Env7.comps = none ∧
    detect Env7 = baseOut Env7 ∧ (detect Env7).found = false :=
  ⟨by decide,
   C7_component_selection.2.1 comps7 ⟨200, 10, 20⟩ (by decide) (by decide),
   by decide,
   (C7_component_selection.2.2.1 Env7 (by decide)).1 (by decide)⟩

set_option maxRecDepth 1000000 in
unseal Rat.mul Rat.add Rat.sub Rat.inv in
/-- Counterexample to C8 as stated: on a non-empty image whose
saturation channel is constant 50, the telemetry `Smin` is 40 — the
clamped value of `percentile - 10` — while the formula of the claim (the
85th saturation percentile clamped into [35, 80], with no shift) gives
50. -/
theorem C8_adaptive_thresholds_counterexample :
    Env8.rows * Env8.cols ≠ 0 ∧
    (detect Env8).Smin = 40 ∧ specSmin Env8.S = 50 ∧
    (detect Env8).Smin ≠ specSmin Env8.S := by decide

/-- C8 (amended): for every non-empty input image, the telemetry
thresholds satisfy: `Smin` equals the 85th percentile of the
saturation channel MINUS 10, clamped into [35, 80]; `Vmin` equals the
60th percentile of the value channel clamped into [40, 90]; and `Vmax`
equals the 99th percentile of the value channel clamped into
[180, 255]. -/
theorem C8_adaptive_thresholds (E : Env) (h0 : E.rows * E.cols ≠ 0) :
    (detect E).Smin = clampZ ((percentile_u8 E.S 85 : ℤ) - 10) 35 80 ∧
    (detect E).Vmin = clampZ (percentile_u8 E.V 60) 40 90 ∧
    (detect E).Vmax = clampZ (percentile_u8 E.V 99) 180 255 := by
  rcases detectR_shape E with ⟨h00, hD⟩ | ⟨hD, -⟩ | ⟨b, hb, hinv, hD⟩ | ⟨r, g, hrr, hD⟩
  · exact absurd h00 h0
  · rw [detect]
    rw [hD]
    exact ⟨rfl, rfl, rfl⟩
  · rw [detect, hD]
    exact ⟨rfl, rfl, rfl⟩
  · rw [detect, hD]
    exact ⟨rfl, rfl, rfl⟩

set_option maxRecDepth 1000000 in
unseal Rat.mul Rat.add Rat.sub Rat.inv in
/-- Witness for the amended C8 at a concrete non-empty image. -/
theorem C8_adaptive_thresholds_witness :
    Env8.rows * Env8.cols ≠ 0 ∧
    (detect Env8).Smin = clampZ ((percentile_u8 Env8.S 85 : ℤ) - 10) 35 80 ∧
    (detect Env8).Vmin = clampZ (percentile_u8 Env8.V 60) 40 90 ∧
    (detect Env8).Vmax = clampZ (percentile_u8 Env8.V 99) 180 255 :=
  ⟨by decide, C8_adaptive_thresholds Env8 (by decide)⟩

/-- Counterexample to C9 as stated: with the default parameters (the
only ones `detect_and_compute` ever uses), the smallMode
peak-prominence and peak-separation thresholds equal the normal-mode
thresholds — `min(0.12, 0.12) = 0.12` — so smallMode does not lower
them. -/
theorem C9_smallMode_counterexample :
    lp_prom P0 true = lp_prom P0 false ∧ ¬ lp_prom P0 true < lp_prom P0 false ∧
    lp_sep P0 true = lp_sep P0 false ∧ ¬ lp_sep P0 true < lp_sep P0 false := by
  have h1 : lp_prom P0 true = lp_prom P0 false := min_self _
  have h2 : lp_sep P0 true = lp_sep P0 false := min_self _
  exact ⟨h1, by rw [h1]; exact lt_irrefl _, h2, by rw [h2]; exact lt_irrefl _⟩

/-- C9 (amended): when the shorter side of the canonical square after
barcode-stripping drops under 60px, validation runs in smallMode,
which skips the CLAHE contrast-equalization step and caps the
line-peaks prominence and separation thresholds at
`min(0.12, configured value)` — never above the normal-mode
thresholds, but with the default 0.12 configuration equal to them
rather than strictly lower. -/
theorem C9_smallMode_thresholds (P : Params) (E : Env) (img : Img) :
    (cascadeSmall E img = true ↔ min (E.strip img).rows (E.strip img).cols < 60) ∧
    lp_useCLAHE true = false ∧
    lp_useCLAHE false = true ∧
    lp_prom P true = min (12/100) P.min_line_peak ∧
    lp_sep P true = min (12/100) P.min_peak_sep ∧
    lp_prom P false = P.min_line_peak ∧
    lp_sep P false = P.min_peak_sep ∧
    lp_prom P true ≤ lp_prom P false ∧
    lp_sep P true ≤ lp_sep P false :=
  ⟨decide_eq_true_iff, rfl, rfl, rfl, rfl, rfl, rfl,
   min_le_right _ _, min_le_right _ _⟩

/-- C10: whenever the result is produced by the fallback path (no
scanned angle validated but the raw-rectangle warp passes the
cascade), the returned telemetry reports `occupancy = 1.0` and
`line_ok = true` unconditionally — not the actual occupancy of the
component mask — and `best_angle_deg` equals the angle of the raw
minimum-area rectangle. -/
theorem C10_fallback_telemetry (E : Env) (c : CompStat) (r : RotRect)
    (h0 : E.rows * E.cols ≠ 0)
    (hlc : largest_component E.comps = some c)
    (hf : ¬(compFrac E c < P0.min_comp_frac ∨ P0.max_comp_frac < compFrac E c))
    (hrr : E.rr = some r)
    (hscan : (runScans E r).cov ≤ 0)
    (hacc : P0.min_hue_score ≤ (cascadeRes E E.fallbackWarped).hue_score ∧
      (cascadeRes E E.fallbackWarped).line_ok = true) :
    (detect E).found = true ∧ (detect E).occupancy = 1 ∧
    (detect E).line_ok = true ∧ (detect E).best_angle_deg = r.angle := by
  have hD : detect E = fallbackOut E r (cascadeRes E E.fallbackWarped).hue_score := by
    rw [detect]
    unfold detectR
    rw [if_neg h0, hlc]
    simp only [if_neg hf]
    rw [hrr]
    simp only [if_neg (not_lt.mpr hscan), if_pos hacc]
  rw [hD]
  exact ⟨rfl, rfl, rfl, rfl⟩

set_option maxRecDepth 1000000 in
unseal Rat.mul Rat.add Rat.sub Rat.inv in
/-- Witness for C10 at a concrete fallback-path detection whose scan
recorded no occupancy at all. -/
theorem C10_fallback_telemetry_witness :
    (runScans EnvF rF).cov ≤ 0 ∧
    (detect EnvF).found = true ∧ (detect EnvF).occupancy = 1 ∧
    (detect EnvF).line_ok = true ∧ (detect EnvF).best_angle_deg = rF.angle :=
  ⟨by decide,
   C10_fallback_telemetry EnvF ⟨1000, 50, 50⟩ rF (by decide) (by decide)
     (by decide) (by decide) (by decide) (by decide)⟩

end MCE
